import Mathlib

/-!
Verification of the osmosis intercepting proxy core.

This file gives a shallow embedding, in Lean 4, of the parts of the
osmosis source that the specified properties talk about:

* the lazy raw-request access of an `Event` (proxy/event.go),
* the hook pipeline built by `Register` (proxy/proxy.go),
* the `CONNECT` handler discrimination (proxy/connect.go),
* the certificate cache (proxy/certificate_cache.go),
* the upstream probe `getCertificate` (proxy/certificate_cache.go),
* leaf minting `NewCertificate` (certauth).

External effects (sockets, TLS, randomness, the system clock) are
represented by explicit parameters: a probe outcome, a peeked byte, a
current time, random serial bytes.  Go machine integers that matter
(the 64-bit serial) are modelled as `Nat` with explicit bounds.
-/

set_option maxRecDepth 4096

namespace Osmosis

/-! ## Bytes, errors -/

/-- A byte is a natural number below 256. -/
abbrev Byte := Nat

/-- Errors produced by the embedded operations.  Go errors are values;
we keep only their construction site / message. -/
inductive GoErr where
  | msg (s : String)
  deriving DecidableEq, Repr

/-! ## Body readers (io.ReadCloser as used by event.go)

The request body of an event is an `io.ReadCloser`.  The code only
ever drains it fully (`ioutil.ReadAll`), closes it, and replaces it by
`ioutil.NopCloser(bytes.NewBuffer(saved))`.  We therefore model a body
as the list of bytes still unread plus the two ways reading can fail:
an error from `Read` and an error from `Close`.  A `NopCloser` over a
fresh buffer has both error components empty. -/
structure BodyReader where
  data : List Byte
  readErr : Option String
  closeErr : Option String
  deriving DecidableEq, Repr

/-- A fresh `ioutil.NopCloser(bytes.NewBuffer(bs))`: yields `bs`, never
fails on read or close. -/
def nopCloser (bs : List Byte) : BodyReader :=
  { data := bs, readErr := none, closeErr := none }

/-- Embeds `readWithoutClose` (proxy/event.go): `ReadAll` the body,
`Close` it, replace it with a NopCloser over the bytes read, and
return those bytes.  Returns the bytes together with the replacement
body. -/
def readWithoutClose (body : BodyReader) : Except GoErr (List Byte × BodyReader) :=
  match body.readErr with
  | some e => .error (.msg ("ReadAll: " ++ e))
  | none =>
    match body.closeErr with
    | some e => .error (.msg ("closing body: " ++ e))
    | none => .ok (body.data, nopCloser body.data)

/-! ## Requests and events -/

/-- The header/request-line part of an `http.Request`; uninterpreted by
the operations we verify, except for the URL host (`Req.URL.Host`),
which the CONNECT handler reads. -/
structure ReqMeta where
  method : String
  urlHost : String
  path : String
  remoteAddr : String
  deriving DecidableEq, Repr

/-- An `http.Request` as the embedded operations see it: its metadata
plus its body reader. -/
structure HttpReq where
  meta : ReqMeta
  body : BodyReader
  deriving DecidableEq, Repr

/-- A pipeline `*Response` (proxy/event.go).  Its payload is irrelevant
to the pipeline-structure properties, so it is an abstract tag. -/
structure PResponse where
  tag : Nat
  deriving DecidableEq, Repr

/-- Errors flowing through the round-trip pipeline. -/
inductive PErr where
  /-- the error built in `newEvent`: "no forward action defined" -/
  | noForwardAction
  /-- any other error (upstream transport, hook failure, ...) -/
  | other (s : String)
  deriving DecidableEq, Repr

/-- The defunctionalized round-trip pipeline value
(`Proxy.roundTripPipeline`, of Go type `EventHook`).  `terminal` is the
method value `p.ForwardRequest`; `wrapped inner k` is the closure that
`Register` builds around the previous pipeline `inner` for the
registered function with index `k`. -/
inductive PipeFn where
  | terminal
  | wrapped (inner : PipeFn) (k : Nat)
  deriving DecidableEq, Repr

/-- The defunctionalized value of an event's `ForwardRequest` field.
`noForwardAction` is the closure installed by `newEvent`;
`invoke p` is the closure `func() { return pipelineCopy(e) }`
installed by a `Register` wrapper with captured pipeline `p`. -/
inductive FwdClosure where
  | noForwardAction
  | invoke (p : PipeFn)
  deriving DecidableEq, Repr

/-- An `Event` (proxy/event.go), restricted to the fields the verified
operations touch.  `ResponseWriter`, `Abort` and `Logger` carry no
information relevant to the properties and are omitted. -/
structure Event where
  ID : Nat
  Req : HttpReq
  ForceHost : String
  ForceScheme : String
  ForwardRequest : FwdClosure
  deriving DecidableEq, Repr

/-- Embeds `newEvent` (proxy/event.go): fresh event with the given id
and request, whose `ForwardRequest` fails with
"no forward action defined", and with zero-valued force fields. -/
def newEvent (req : HttpReq) (id : Nat) : Event :=
  { ID := id
    Req := req
    ForceHost := ""
    ForceScheme := ""
    ForwardRequest := .noForwardAction }

/-! ## RawRequest (claim C7)

`RawRequest` first forces the body into a NopCloser via
`readWithoutClose` and then calls `httputil.DumpRequest(e.Req, true)`.
`DumpRequest` itself drains the body and replaces it by an equivalent
fresh reader over the same bytes; its serialization of the headers and
the body is abstract here (`ser`). -/

/-- Embeds `httputil.DumpRequest(req, body=true)` for a request whose
body is a NopCloser: drains the body, returns `ser meta bodyBytes`,
and resets the body to a fresh reader over the same bytes.  `ser` is
the (abstract, pure) HTTP/1.1 wire serialization. -/
def dumpRequest (ser : ReqMeta → List Byte → List Byte) (req : HttpReq) :
    Except GoErr (List Byte × HttpReq) :=
  match req.body.readErr with
  | some e => .error (.msg ("dumping request: " ++ e))
  | none => .ok (ser req.meta req.body.data, { req with body := nopCloser req.body.data })

/-- Embeds `Event.RawRequest` (proxy/event.go): force the body into a
NopCloser with `readWithoutClose`, then dump the request.  Returns the
wire bytes and the event as left behind (its body mutated in place in
Go). -/
def rawRequest (ser : ReqMeta → List Byte → List Byte) (e : Event) :
    Except GoErr (List Byte × Event) :=
  match readWithoutClose e.Req.body with
  | .error err => .error (.msg ("readWithoutClose: " ++ (match err with | .msg s => s)))
  | .ok (_, body1) =>
    match dumpRequest ser { e.Req with body := body1 } with
    | .error err => .error err
    | .ok (dump, req2) => .ok (dump, { e with Req := req2 })

/-! ## The round-trip pipeline (proxy/proxy.go, claims C2 and C9)

`Register` wraps each supplied function around the current pipeline:

    p.roundTripPipeline = func(e *Event) (*Response, error) {
        e.ForwardRequest = func() (*Response, error) { return pipelineCopy(e) }
        response, err := funcCopy(e)
        if err != nil { return nil, err }
        return response, nil
    }

The pipeline value is defunctionalized as `PipeFn`; registered hook
functions are identified by an index and their behavior is an
interpretation parameter `HookSem`.  A hook, invoked on an event, may
first mutate the event (`pre`), may call the event's `ForwardRequest`
closure at most once (`callsForward`), and produces its result from
the forwarded outcome (`post`) or directly (`short`).  Hooks are
modelled as reading the `ForwardRequest` closure that the wrapping
layer installed; `upstream` is the terminal `Proxy.ForwardRequest`
round trip. -/

/-- Interpretation of the registered hook functions and of the
terminal upstream forward. -/
structure HookSem where
  pre : Nat → Event → Event
  callsForward : Nat → Event → Bool
  post : Nat → Event → Except PErr PResponse → Except PErr PResponse
  short : Nat → Event → Except PErr PResponse
  upstream : Event → Except PErr PResponse

/-- Observation of one pipeline run: which hooks ran (outermost
first), each paired with the `ForwardRequest` closure installed on the
event at the moment the hook was invoked; whether the terminal
upstream forward was reached; and the overall result. -/
structure RunResult where
  trace : List (Nat × FwdClosure)
  hitTerminal : Bool
  result : Except PErr PResponse
  deriving Repr

/-- Runs a defunctionalized pipeline value on an event, mirroring the
closure built in `Register` (proxy/proxy.go): the wrapper sets
`e.ForwardRequest` to a closure over the captured previous pipeline,
then invokes the hook, whose own call of `ForwardRequest` continues
into that previous pipeline with the event as the hook has mutated
it. -/
def runPipeFn (H : HookSem) : PipeFn → Event → RunResult
  | .terminal, e =>
    { trace := [], hitTerminal := true, result := H.upstream e }
  | .wrapped inner k, e =>
    let e1 : Event := { e with ForwardRequest := .invoke inner }
    let e2 := H.pre k e1
    if H.callsForward k e1 then
      let sub := runPipeFn H inner e2
      { trace := (k, e1.ForwardRequest) :: sub.trace
        hitTerminal := sub.hitTerminal
        result := H.post k e2 sub.result }
    else
      { trace := [(k, e1.ForwardRequest)]
        hitTerminal := false
        result := H.short k e2 }

/-- Invoking an event's `ForwardRequest` closure: the closure from
`newEvent` fails with the "no forward action defined" error; a closure
installed by a `Register` wrapper runs the captured pipeline on the
event's current state. -/
def runFwd (H : HookSem) (c : FwdClosure) (e : Event) : Except PErr PResponse :=
  match c with
  | .noForwardAction => .error .noForwardAction
  | .invoke p => (runPipeFn H p e).result

/-- Embeds `Proxy.Register` (proxy/proxy.go): if the pipeline is still
nil it becomes the terminal `ForwardRequest`, then every supplied
function is wrapped, in order, around the current pipeline. -/
def Register (roundTripPipeline : Option PipeFn) (funcs : List Nat) : PipeFn :=
  let p0 := match roundTripPipeline with
    | none => PipeFn.terminal
    | some p => p
  funcs.foldl (fun pipelineCopy funcCopy => .wrapped pipelineCopy funcCopy) p0

/-- The trace a fully-forwarding run should produce when the hooks
`ks` have been registered, in order, on top of the pipeline `p0`:
hooks fire in reverse registration order, and each hook `k` sees the
`ForwardRequest` closure over exactly the pipeline that existed before
`k` was registered. -/
def expectedTrace (p0 : PipeFn) : List Nat → List (Nat × FwdClosure)
  | [] => []
  | k :: ks => expectedTrace (.wrapped p0 k) ks ++ [(k, .invoke p0)]

/-! ## The CONNECT handler (proxy/connect.go, claims C1 and C8)

`ServeConnect` hijacks the client connection, answers 200, peeks one
byte, and serves the tunneled byte stream through an embedded HTTP
server whose handler pins `ForceHost`/`ForceScheme` on every
sub-request event.  The socket-level outcomes are inputs here. -/

/-- Outcomes of the socket and TLS operations `ServeConnect` performs,
supplied as an environment: whether the hijack / flush / 200-write
succeed, the result of `Peek(1)` (`none` = error), whether the
server-side TLS handshake succeeds, and the ALPN protocol it
negotiates. -/
structure ConnectEnv where
  hijackOk : Bool
  flushOk : Bool
  writeOk : Bool
  peek : Option Byte
  handshakeOk : Bool
  negotiatedProtocol : String
  deriving DecidableEq, Repr

/-- The configuration `ServeConnect` hands to the embedded server:
the pinned host and scheme for sub-request events, and the parent id
(0 meaning: draw a fresh id per sub-request). -/
structure SubServer where
  forceHost : String
  forceScheme : String
  parentID : Nat
  deriving DecidableEq, Repr

/-- Result of `ServeConnect` up to the point where the embedded server
starts (or the reason it never starts).  `serving viaTLS cfg` means
the tunnel was delivered to the embedded server; `viaTLS` records
whether the delivered connection is the TLS-terminated one. -/
inductive ConnectResult where
  | noHijack
  | hijackFailed
  | flushFailed
  | writeFailed
  | peekFailed
  | tlsHandshakeFailed
  | serving (viaTLS : Bool) (cfg : SubServer)
  deriving DecidableEq, Repr

/-- Embeds `ServeConnect` (proxy/connect.go) up to starting the
embedded server: hijack, flush, write the `HTTP/1.0 200 OK`, peek one
byte, then discriminate on `0x16`.  On the TLS branch the handshake is
attempted and, on success, the ALPN `h2` result switches the parent id
to 0; on the cleartext branch the buffered connection is delivered
directly. -/
def ServeConnect (e : Event) (env : ConnectEnv) : ConnectResult :=
  if ¬env.hijackOk then .noHijack
  else if ¬env.flushOk then .flushFailed
  else if ¬env.writeOk then .writeFailed
  else
    match env.peek with
    | none => .peekFailed
    | some b =>
      let forceHost := if e.ForceHost != "" then e.ForceHost else e.Req.meta.urlHost
      let parentID := e.ID
      if b = 0x16 then
        if ¬env.handshakeOk then .tlsHandshakeFailed
        else
          let parentID := if env.negotiatedProtocol = "h2" then 0 else parentID
          .serving true { forceHost := forceHost, forceScheme := "https", parentID := parentID }
      else
        .serving false { forceHost := forceHost, forceScheme := "http", parentID := parentID }

/-- True iff `ServeConnect` reached `tlsConn.Handshake()`, i.e.
performed a server-side TLS handshake (successfully or not). -/
def attemptedTLSHandshake : ConnectResult → Bool
  | .tlsHandshakeFailed => true
  | .serving viaTLS _ => viaTLS
  | _ => false

/-- Embeds `Proxy.nextRequestID` (proxy/proxy.go):
`atomic.AddUint64(&p.requestID, 1)` — increments the counter and
returns the new value.  State-passing form: (new id, new counter). -/
def nextRequestID (requestID : Nat) : Nat × Nat :=
  (requestID + 1, requestID + 1)

/-- Embeds the handler closure of the embedded server in
`ServeConnect` (proxy/connect.go): for one tunneled sub-request,
compute the id (the parent id, or a fresh one when the parent id is
0), build the event with `newEvent`, and pin `ForceHost` and
`ForceScheme`.  Returns the event and the new counter value. -/
def connectSubEvent (cfg : SubServer) (req : HttpReq) (requestID : Nat) : Event × Nat :=
  let nextID := cfg.parentID
  let (nextID, requestID) :=
    if nextID = 0 then nextRequestID requestID else (nextID, requestID)
  let event := newEvent req nextID
  ({ event with ForceHost := cfg.forceHost, ForceScheme := cfg.forceScheme }, requestID)

/-- The embedded server handles the tunneled sub-requests one after
the other, threading the id counter. -/
def connectSubEvents (cfg : SubServer) (reqs : List HttpReq) (requestID : Nat) :
    List Event × Nat :=
  match reqs with
  | [] => ([], requestID)
  | r :: rs =>
    let (ev, c1) := connectSubEvent cfg r requestID
    let (evs, c2) := connectSubEvents cfg rs c1
    (ev :: evs, c2)

/-! ## The certificate cache (proxy/certificate_cache.go, claims C3, C5, C10)

Certificates themselves are abstract identifiers here; times are
natural numbers counting seconds, with Go's zero `time.Time` as 0 and
`time.Since(t)` as truncated subtraction `now - t` (for a `t` in the
future Go yields a negative duration and the `> interval` test is
false, which truncated subtraction reproduces). -/

/-- An x509 certificate, by identity. -/
abbrev CertId := Nat

/-- Embeds `cacheEntry` (proxy/certificate_cache.go): certificate plus
insertion timestamp. -/
structure cacheEntry where
  T : Nat
  C : CertId
  deriving DecidableEq, Repr

/-- Embeds `cacheKey` (proxy/certificate_cache.go): target address plus SNI
server name, compared by value. -/
structure cacheKey where
  Addr : String
  ServerName : String
  deriving DecidableEq, Repr

/-- The `Cache` struct (proxy/certificate_cache.go); the mutex is the
exclusive-access discipline and has no state content.  The map is an
association list with unique keys. -/
structure Cache where
  certs : List (cacheKey × cacheEntry)
  lastCleanup : Nat
  cleanupInterval : Nat
  cacheDuration : Nat
  deriving DecidableEq, Repr

/-- Map lookup `c.certs[key]`. -/
def lookupCert (certs : List (cacheKey × cacheEntry)) (k : cacheKey) : Option cacheEntry :=
  (certs.find? (fun p => decide (p.1 = k))).map Prod.snd

/-- Embeds `NewCache` (proxy/certificate_cache.go): empty map, the
package constants `cleanupInterval = 30 s` and
`cacheDuration = 10 min`, and a zero `lastCleanup` (the Go zero value,
never assigned anywhere in the package). -/
def NewCache : Cache :=
  { certs := []
    lastCleanup := 0
    cleanupInterval := 30
    cacheDuration := 600 }

/-- Embeds `Cache.cleanup` (proxy/certificate_cache.go): delete every
entry with `time.Since(entry.T) > c.cacheDuration`.  Note the source
does not touch `lastCleanup`. -/
def Cache.cleanup (c : Cache) (now : Nat) : Cache :=
  { c with certs := c.certs.filter (fun p => ! decide (now - p.2.T > c.cacheDuration)) }

/-- Result of `getOrCreate`: the returned value, the cache state left
behind, and (instrumentation) whether the supplied creation function
`f` was invoked. -/
structure GetOrCreateResult where
  res : Except GoErr CertId
  state : Cache
  minted : Bool
  deriving Repr

/-- Embeds `Cache.getOrCreate` (proxy/certificate_cache.go): under the
lock, run the cleanup sweep when `time.Since(c.lastCleanup) >
c.cleanupInterval`, look the key up, and on a miss call `f`, caching a
successful result with insertion time `now`.  `f`'s outcome is passed
in as a value. -/
def Cache.getOrCreate (c : Cache) (now : Nat) (addr serverName : String)
    (f : Except GoErr CertId) : GetOrCreateResult :=
  let c1 := if now - c.lastCleanup > c.cleanupInterval then c.cleanup now else c
  let key : cacheKey := { Addr := addr, ServerName := serverName }
  match lookupCert c1.certs key with
  | some entry => { res := .ok entry.C, state := c1, minted := false }
  | none =>
    match f with
    | .error err => { res := .error err, state := c1, minted := true }
    | .ok cert =>
      { res := .ok cert
        state := { c1 with certs := (key, { T := now, C := cert }) :: c1.certs }
        minted := true }

/-- Embeds the anonymous creation closure of `Cache.Get`
(proxy/certificate_cache.go): try the upstream probe and clone its
leaf; on any failure of either, fall back to
`ca.NewCertificate(name, []string{name})`.  The outcomes of the probe
(`probeRes`), of `ca.Clone` (`cloneRes`) and of the fallback mint
(`mintRes`) are inputs. -/
def getCreateFunc (probeRes : Except GoErr CertId) (cloneRes : CertId → Except GoErr CertId)
    (mintRes : Except GoErr CertId) : Except GoErr CertId :=
  match probeRes with
  | .ok cert =>
    match cloneRes cert with
    | .ok clonedCert => .ok clonedCert
    | .error _ => mintRes
  | .error _ => mintRes

/-- Result of `Cache.Get`: the returned TLS certificate (or error),
the cache state left behind, and whether a mint was attempted. -/
structure GetResult where
  res : Except GoErr Nat
  state : Cache
  minted : Bool
  deriving Repr

/-- Embeds `Cache.Get` (proxy/certificate_cache.go): delegate to
`getOrCreate` with the probe-clone-or-mint closure, then wrap a
successful certificate with `ca.TLSCert` (abstract here, `tlsCert`). -/
def Cache.Get (c : Cache) (now : Nat) (addr serverName : String)
    (probeRes : Except GoErr CertId) (cloneRes : CertId → Except GoErr CertId)
    (mintRes : Except GoErr CertId) (tlsCert : CertId → Nat) : GetResult :=
  let r := c.getOrCreate now addr serverName (getCreateFunc probeRes cloneRes mintRes)
  match r.res with
  | .error err => { res := .error err, state := r.state, minted := r.minted }
  | .ok crt => { res := .ok (tlsCert crt), state := r.state, minted := r.minted }

/-- Cache states reachable in a process: the `NewCache` initial state
followed by any sequence of `getOrCreate` calls (every mutation of the
cache, including the one inside `Get`, goes through `getOrCreate`). -/
inductive ReachableCache : Cache → Prop
  | init : ReachableCache NewCache
  | step (c : Cache) (now : Nat) (addr serverName : String) (f : Except GoErr CertId) :
      ReachableCache c → ReachableCache ((c.getOrCreate now addr serverName f).state)

/-! ## The upstream probe (proxy/certificate_cache.go, claim C4) -/

/-- Go's `strings.Split(s, sep)` for a single-character separator, on
character lists: all substrings between occurrences of `sep`. -/
def splitChars (sep : Char) : List Char → List (List Char)
  | [] => [[]]
  | c :: cs =>
    let r := splitChars sep cs
    if c = sep then [] :: r
    else match r with
      | [] => [[c]]
      | g :: gs => (c :: g) :: gs

/-- Go's `strings.Split(s, ":")[0]`: the prefix of `s` before the
first colon (all of `s` when there is none). -/
def hostPart (s : String) : String :=
  String.mk (s.toList.takeWhile (fun c => c ≠ ':'))

/-- The subset of `tls.Config` the probe manipulates. -/
structure TLSConf where
  ServerName : String
  deriving DecidableEq, Repr

/-- A peer certificate as the probe inspects it. -/
structure PeerCert where
  IsCA : Bool
  id : Nat
  deriving DecidableEq, Repr

/-- Outcomes of the probe's socket operations, supplied as inputs:
whether the TCP dial, the TLS handshake and the close succeed, and the
peer certificate chain presented by the server. -/
structure ProbeEnv where
  dialOk : Bool
  handshakeOk : Bool
  closeOk : Bool
  peerCertificates : List PeerCert
  deriving DecidableEq, Repr

/-- Result of the probe: the TLS client configuration that was used
for the handshake (`none` when the dial already failed and no
handshake was attempted) and the returned certificate or error. -/
structure ProbeOutcome where
  usedConfig : Option TLSConf
  res : Except GoErr PeerCert
  deriving Repr

/-- Embeds `getCertificate` (proxy/certificate_cache.go): dial,
build the TLS client configuration — the source assigns
`cfg.ServerName = serverName` and then immediately assigns
`cfg.ServerName = strings.Split(target, ":")[0]` — handshake, close,
and return the first non-CA certificate of the peer chain. -/
def getCertificate (target serverName : String) (clientConfig : Option TLSConf)
    (env : ProbeEnv) : ProbeOutcome :=
  if ¬env.dialOk then { usedConfig := none, res := .error (.msg "dial failed") }
  else
    let cfg : TLSConf := match clientConfig with
      | none => { ServerName := "" }
      | some c => c
    let cfg := { cfg with ServerName := serverName }
    let cfg := { cfg with ServerName := hostPart target }
    if ¬env.handshakeOk then { usedConfig := some cfg, res := .error (.msg "handshake failed") }
    else if ¬env.closeOk then { usedConfig := some cfg, res := .error (.msg "close failed") }
    else
      match env.peerCertificates.find? (fun cert => ! cert.IsCA) with
      | some cert => { usedConfig := some cfg, res := .ok cert }
      | none => { usedConfig := some cfg, res := .error (.msg "no certificate could be found") }

/-! ## Leaf minting (certauth `NewCertificate`, claim C6) -/

/-- The fields of a minted leaf certificate that the verified
properties talk about.  `signedByCA` records the certificate/key pair
passed as parent to `x509.CreateCertificate`. -/
structure LeafCert where
  SerialNumber : Nat
  SubjectCN : String
  NotBefore : Nat
  NotAfter : Nat
  DNSNames : List String
  IPAddresses : List String
  signedByCA : Nat
  deriving DecidableEq, Repr

/-- The SAN partition loop of `NewCertificate` (certauth): append each
name to `IPAddresses` when `net.ParseIP` succeeds on it, and to
`DNSNames` otherwise, preserving order.  Returns
`(DNSNames, IPAddresses)`. -/
def sanLists (parseIP : String → Bool) : List String → List String × List String
  | [] => ([], [])
  | name :: rest =>
    let (dns, ips) := sanLists parseIP rest
    if parseIP name then (dns, name :: ips) else (name :: dns, ips)

/-- Embeds `big.NewInt(0).SetBytes(serial)`: big-endian byte interpretation. -/
def bytesToNat (bs : List Byte) : Nat :=
  bs.foldl (fun acc b => acc * 256 + b) 0

/-- Embeds `CertificateAuthority.NewCertificate` (certauth): random
64-bit serial from 8 random bytes (`serialBytes`, an input here), CN,
10-year validity, SANs partitioned by `net.ParseIP` (`parseIP`, the
standard-library parse, an input here), and a signature by the CA. -/
def NewCertificate (parseIP : String → Bool) (caId : Nat) (serialBytes : List Byte)
    (now : Nat) (commonName : String) (names : List String) : LeafCert :=
  let (dns, ips) := sanLists parseIP names
  { SerialNumber := bytesToNat serialBytes
    SubjectCN := commonName
    NotBefore := now
    NotAfter := now + 3650 * 24 * 3600
    DNSNames := dns
    IPAddresses := ips
    signedByCA := caId }

/-- Decimal value of a digit run. -/
def digitsVal (cs : List Char) : Nat :=
  cs.foldl (fun a c => a * 10 + (c.toNat - 48)) 0

/-- Modelled from the spec and the Go standard library: the dotted-quad
IPv4 case of `net.ParseIP` (the library itself is not part of the
repository).  Accepts exactly four dot-separated runs of one to three
decimal digits each valuing at most 255.  Used only to instantiate the
abstract `parseIP` parameter on the concrete scenario inputs, none of
which exercises the IPv6 or leading-zero edge cases. -/
def parseIPv4 (s : String) : Bool :=
  let parts := splitChars '.' s.toList
  (parts.length == 4) && parts.all (fun p =>
    decide (0 < p.length) && decide (p.length ≤ 3) &&
    p.all (fun ch => ch.isDigit) && decide (digitsVal p ≤ 255))

/-! # Theorems -/

/-- C7: `event.rawRequest()` is idempotent.  For an event whose body
reader yields a finite byte sequence (reads and close succeed), two
sequential calls both succeed, return equal byte slices, leave the
event unchanged after the first call, and leave the body a fresh fully
readable reader over the same bytes — the body is not consumed. -/
theorem rawRequest_idempotent (ser : ReqMeta → List Byte → List Byte) (e : Event)
    (hr : e.Req.body.readErr = none) (hc : e.Req.body.closeErr = none) :
    ∃ bytes e1,
      rawRequest ser e = .ok (bytes, e1) ∧
      rawRequest ser e1 = .ok (bytes, e1) ∧
      e1.Req.body = nopCloser e.Req.body.data := by
  refine ⟨ser e.Req.meta e.Req.body.data,
    { e with Req := { e.Req with body := nopCloser e.Req.body.data } }, ?_, ?_, rfl⟩ <;>
    simp [rawRequest, readWithoutClose, dumpRequest, nopCloser, hr, hc]

/-- A concrete event exercising `rawRequest`. -/
def c7event : Event :=
  newEvent
    { meta := { method := "GET", urlHost := "echo.test", path := "/x",
                remoteAddr := "127.0.0.1:5000" }
      body := nopCloser [104, 105] } 1

/-- Witness for C7 at a concrete event with body bytes `[104, 105]`. -/
theorem rawRequest_idempotent_witness :
    ∃ bytes e1,
      rawRequest (fun _ bs => bs) c7event = .ok (bytes, e1) ∧
      rawRequest (fun _ bs => bs) e1 = .ok (bytes, e1) ∧
      e1.Req.body = nopCloser c7event.Req.body.data :=
  rawRequest_idempotent (fun _ bs => bs) c7event rfl rfl

/-- C9: an event fresh from `newEvent` (no pipeline layer has bound a
terminal) fails `forwardRequest` with the no-forward-action error and
produces no response; once a closure over the pipeline is bound,
`forwardRequest` runs that pipeline — for the terminal itself this is
exactly the upstream round trip, whose response or error is returned
as is. -/
theorem forwardRequest_no_terminal (H : HookSem) (req : HttpReq) (id : Nat) (e : Event) :
    runFwd H (newEvent req id).ForwardRequest e = .error .noForwardAction ∧
    runFwd H (.invoke .terminal) e = H.upstream e ∧
    ∀ p : PipeFn, runFwd H (.invoke p) e = (runPipeFn H p e).result :=
  ⟨rfl, rfl, fun _ => rfl⟩

/-- A probe environment in which every socket operation succeeds and
the peer presents a CA certificate followed by a leaf. -/
def c4probeEnv : ProbeEnv :=
  { dialOk := true, handshakeOk := true, closeOk := true
    peerCertificates := [{ IsCA := true, id := 0 }, { IsCA := false, id := 1 }] }

/-- C4, evaluated at the failing input: probing
`example.com:443` with the non-empty SNI `other.test` performs the
handshake with `ServerName = "example.com"` — the host portion of the
address — because the assignment of `serverName` is immediately
overwritten in the source; the claim requires `"other.test"`.  The
probe does return the first non-CA certificate of the chain. -/
theorem probe_serverName_overwritten :
    (getCertificate "example.com:443" "other.test" none c4probeEnv).usedConfig
      = some { ServerName := "example.com" } ∧
    (getCertificate "example.com:443" "other.test" none c4probeEnv).res
      = .ok { IsCA := false, id := 1 } ∧
    "example.com" ≠ "other.test" :=
  ⟨by decide, rfl, by decide⟩

/-- An initial cache holding one entry inserted at time 100. -/
def c3key1 : cacheKey := { Addr := "a.test:443", ServerName := "a.test" }

/-- Starting state for the C3 run: one entry, fields as `NewCache`
sets them. -/
def c3state0 : Cache :=
  { certs := [(c3key1, { T := 100, C := 7 })]
    lastCleanup := 0, cleanupInterval := 30, cacheDuration := 600 }

/-- First get, at time 700: misses on a different key and performs the
eviction sweep (the entry of age exactly 600 survives it). -/
def c3call1 : GetOrCreateResult :=
  c3state0.getOrCreate 700 "b.test:443" "b.test" (.ok 8)

/-- Second get, at time 720 — within `cleanupInterval` of the
first — for the originally cached key. -/
def c3call2 : GetOrCreateResult :=
  c3call1.state.getOrCreate 720 "a.test:443" "a.test" (.ok 9)

/-- C3, evaluated at the failing input: the sweep never assigns
`lastCleanup` (no assignment exists in the source), so after the first
get at time 700 `lastCleanup` is still 0, and the second get 20 s
later — which per the claim must not sweep and must serve the cached
certificate 7 — sweeps again, evicts the entry (age 620 > 600), and
mints certificate 9 instead. -/
theorem cleanup_never_sets_lastCleanup :
    c3call1.state.lastCleanup = 0 ∧
    lookupCert c3call1.state.certs c3key1 = some { T := 100, C := 7 } ∧
    c3call2.state.lastCleanup = 0 ∧
    c3call2.minted = true ∧
    c3call2.res = .ok 9 ∧
    lookupCert c3call2.state.certs c3key1 = some { T := 720, C := 9 } :=
  ⟨rfl, by decide, rfl, rfl, rfl, by decide⟩

/-- A key absent from a map stays absent after filtering. -/
theorem lookupCert_filter_none {l : List (cacheKey × cacheEntry)} {k : cacheKey}
    (q : cacheKey × cacheEntry → Bool) (h : lookupCert l k = none) :
    lookupCert (l.filter q) k = none := by
  unfold lookupCert at h ⊢
  rw [Option.map_eq_none'] at h ⊢
  rw [List.find?_eq_none] at h ⊢
  intro x hx
  exact h x (List.mem_of_mem_filter hx)

/-- The conditional sweep at the top of `getOrCreate`, as a named
function of the pre-state. -/
def Cache.sweepIfDue (c : Cache) (now : Nat) : Cache :=
  if now - c.lastCleanup > c.cleanupInterval then c.cleanup now else c

/-- The function `getOrCreate` restated through `sweepIfDue`; definitional. -/
theorem getOrCreate_eq (c : Cache) (now : Nat) (addr serverName : String)
    (f : Except GoErr CertId) :
    c.getOrCreate now addr serverName f =
      match lookupCert (c.sweepIfDue now).certs { Addr := addr, ServerName := serverName } with
      | some entry => { res := .ok entry.C, state := c.sweepIfDue now, minted := false }
      | none =>
        match f with
        | .error err => { res := .error err, state := c.sweepIfDue now, minted := true }
        | .ok cert =>
          { res := .ok cert
            state := { c.sweepIfDue now with
              certs := ({ Addr := addr, ServerName := serverName }, { T := now, C := cert })
                :: (c.sweepIfDue now).certs }
            minted := true } := rfl

/-- The certs left by the conditional sweep all come from the previous
map. -/
theorem sweepIfDue_certs_subset (c : Cache) (now : Nat) :
    (c.sweepIfDue now).certs ⊆ c.certs := by
  unfold Cache.sweepIfDue
  split
  · exact fun x hx => List.mem_of_mem_filter hx
  · exact fun x hx => hx

/-- A key absent before the conditional sweep is absent after it. -/
theorem lookupCert_sweepIfDue_none {c : Cache} {k : cacheKey} (now : Nat)
    (h : lookupCert c.certs k = none) :
    lookupCert (c.sweepIfDue now).certs k = none := by
  unfold Cache.sweepIfDue
  split
  · exact lookupCert_filter_none _ h
  · exact h

/-- On a key miss, `getOrCreate` always invokes the creation
function. -/
theorem getOrCreate_miss_minted {c : Cache} {now : Nat} {addr serverName : String}
    {f : Except GoErr CertId}
    (h : lookupCert c.certs { Addr := addr, ServerName := serverName } = none) :
    (c.getOrCreate now addr serverName f).minted = true := by
  rw [getOrCreate_eq, lookupCert_sweepIfDue_none now h]
  cases f <;> rfl

/-- C10: `getOrCreate` is atomic on creation failure.  When the key is
not cached and the creation function fails (both the probe/clone path
and the fallback mint failed), the error is returned, nothing is
inserted — the key is still absent and every entry of the resulting
map was already present — and a later get for the same key invokes the
creation function again instead of observing a cached failure. -/
theorem getOrCreate_error_no_insert (c : Cache) (now : Nat) (addr serverName : String)
    (err : GoErr)
    (hmiss : lookupCert c.certs { Addr := addr, ServerName := serverName } = none) :
    (c.getOrCreate now addr serverName (.error err)).res = .error err ∧
    (c.getOrCreate now addr serverName (.error err)).minted = true ∧
    lookupCert (c.getOrCreate now addr serverName (.error err)).state.certs
      { Addr := addr, ServerName := serverName } = none ∧
    (c.getOrCreate now addr serverName (.error err)).state.certs ⊆ c.certs ∧
    ∀ (now2 : Nat) (f2 : Except GoErr CertId),
      (((c.getOrCreate now addr serverName (.error err)).state).getOrCreate
        now2 addr serverName f2).minted = true := by
  have h1 := lookupCert_sweepIfDue_none (c := c) now hmiss
  have hres : c.getOrCreate now addr serverName (.error err)
      = { res := .error err, state := c.sweepIfDue now, minted := true } := by
    rw [getOrCreate_eq, h1]
  rw [hres]
  exact ⟨rfl, rfl, h1, sweepIfDue_certs_subset c now,
    fun now2 f2 => getOrCreate_miss_minted h1⟩

/-- Witness for C10: the empty `NewCache` at time 100, with a creation
function failing with a concrete error. -/
theorem getOrCreate_error_no_insert_witness :
    (NewCache.getOrCreate 100 "x.test:443" "x.test" (.error (.msg "boom"))).res
      = .error (.msg "boom") ∧
    (NewCache.getOrCreate 100 "x.test:443" "x.test" (.error (.msg "boom"))).minted = true ∧
    lookupCert (NewCache.getOrCreate 100 "x.test:443" "x.test"
        (.error (.msg "boom"))).state.certs
      { Addr := "x.test:443", ServerName := "x.test" } = none ∧
    (NewCache.getOrCreate 100 "x.test:443" "x.test" (.error (.msg "boom"))).state.certs
      ⊆ NewCache.certs ∧
    ∀ (now2 : Nat) (f2 : Except GoErr CertId),
      (((NewCache.getOrCreate 100 "x.test:443" "x.test"
          (.error (.msg "boom"))).state).getOrCreate now2 "x.test:443" "x.test" f2).minted
        = true :=
  getOrCreate_error_no_insert NewCache 100 "x.test:443" "x.test" (.msg "boom") rfl

/-- The conditional sweep changes no field other than the map. -/
theorem sweepIfDue_fields (c : Cache) (now : Nat) :
    (c.sweepIfDue now).lastCleanup = c.lastCleanup ∧
    (c.sweepIfDue now).cleanupInterval = c.cleanupInterval ∧
    (c.sweepIfDue now).cacheDuration = c.cacheDuration := by
  unfold Cache.sweepIfDue Cache.cleanup
  split <;> exact ⟨rfl, rfl, rfl⟩

/-- The function `getOrCreate` changes no field other than the map (in particular
it never assigns `lastCleanup`). -/
theorem getOrCreate_preserves_params (c : Cache) (now : Nat) (addr serverName : String)
    (f : Except GoErr CertId) :
    (c.getOrCreate now addr serverName f).state.lastCleanup = c.lastCleanup ∧
    (c.getOrCreate now addr serverName f).state.cleanupInterval = c.cleanupInterval ∧
    (c.getOrCreate now addr serverName f).state.cacheDuration = c.cacheDuration := by
  obtain ⟨h1, h2, h3⟩ := sweepIfDue_fields c now
  rw [getOrCreate_eq]
  cases lookupCert (c.sweepIfDue now).certs { Addr := addr, ServerName := serverName } with
  | some entry => exact ⟨h1, h2, h3⟩
  | none => cases f <;> exact ⟨h1, h2, h3⟩

/-- Every reachable cache state keeps `lastCleanup` at the zero value
(the source never assigns it) and the `NewCache` interval and duration
constants. -/
theorem reachable_params (c : Cache) (h : ReachableCache c) :
    c.lastCleanup = 0 ∧ c.cleanupInterval = 30 ∧ c.cacheDuration = 600 := by
  induction h with
  | init => exact ⟨rfl, rfl, rfl⟩
  | step c now addr serverName f _ ih =>
    obtain ⟨p1, p2, p3⟩ := getOrCreate_preserves_params c now addr serverName f
    exact ⟨p1.trans ih.1, p2.trans ih.2.1, p3.trans ih.2.2⟩

/-- An entry found in a filtered map passed the filter. -/
theorem lookupCert_filter_some {l : List (cacheKey × cacheEntry)} {k : cacheKey}
    {e : cacheEntry} {q : cacheKey × cacheEntry → Bool}
    (h : lookupCert (l.filter q) k = some e) : q (k, e) = true := by
  unfold lookupCert at h
  cases hf : (l.filter q).find? (fun p => decide (p.1 = k)) with
  | none => rw [hf] at h; simp at h
  | some p =>
    rw [hf] at h
    simp only [Option.map_some', Option.some.injEq] at h
    have hkey0 := List.find?_some hf
    have hkey : p.1 = k := of_decide_eq_true hkey0
    have hq : q p = true := (List.mem_filter.mp (List.mem_of_find?_eq_some hf)).2
    cases p with
    | mk k1 e1 =>
      cases hkey
      cases h
      exact hq

/-- Looking up the key just inserted at the head of the map. -/
theorem lookupCert_cons_self (k : cacheKey) (e : cacheEntry)
    (l : List (cacheKey × cacheEntry)) :
    lookupCert ((k, e) :: l) k = some e := by
  simp [lookupCert, List.find?]

/-- C5: every leaf `Cache.Get` returns — freshly minted or found in
the cache — comes from an entry of the resulting cache state whose age
satisfies `now - insertionTime ≤ cacheDuration` at the moment of the
call; no entry older than `cacheDuration` is reachable through
`Get`. -/
theorem Get_entry_age_bounded (c : Cache) (h : ReachableCache c) (now : Nat)
    (addr serverName : String) (probeRes : Except GoErr CertId)
    (cloneRes : CertId → Except GoErr CertId) (mintRes : Except GoErr CertId)
    (tlsCert : CertId → Nat) (v : Nat)
    (hok : (c.Get now addr serverName probeRes cloneRes mintRes tlsCert).res = .ok v) :
    ∃ entry : cacheEntry,
      lookupCert (c.Get now addr serverName probeRes cloneRes mintRes tlsCert).state.certs
        { Addr := addr, ServerName := serverName } = some entry ∧
      v = tlsCert entry.C ∧
      now - entry.T ≤ c.cacheDuration := by
  obtain ⟨hlc, hci, hcd⟩ := reachable_params c h
  cases hl : lookupCert (c.sweepIfDue now).certs { Addr := addr, ServerName := serverName } with
  | some entry =>
    have hres : c.Get now addr serverName probeRes cloneRes mintRes tlsCert
        = { res := .ok (tlsCert entry.C), state := c.sweepIfDue now, minted := false } := by
      simp only [Cache.Get, getOrCreate_eq, hl]
    rw [hres] at hok ⊢
    have hv : tlsCert entry.C = v := by simpa using hok
    refine ⟨entry, hl, hv.symm, ?_⟩
    unfold Cache.sweepIfDue at hl
    by_cases hsw : now - c.lastCleanup > c.cleanupInterval
    · rw [if_pos hsw] at hl
      have hq := lookupCert_filter_some
        (q := fun p => ! decide (now - p.2.T > c.cacheDuration)) hl
      simp only [Bool.not_eq_true', decide_eq_false_iff_not, not_lt] at hq
      exact hq
    · rw [hlc, hci] at hsw
      rw [hcd]
      omega
  | none =>
    cases hf : getCreateFunc probeRes cloneRes mintRes with
    | error err =>
      have hres : c.Get now addr serverName probeRes cloneRes mintRes tlsCert
          = { res := .error err, state := c.sweepIfDue now, minted := true } := by
        simp only [Cache.Get, getOrCreate_eq, hl, hf]
      rw [hres] at hok
      exact absurd hok (by simp)
    | ok cert =>
      have hres : c.Get now addr serverName probeRes cloneRes mintRes tlsCert
          = { res := .ok (tlsCert cert)
              state := { c.sweepIfDue now with
                certs := ({ Addr := addr, ServerName := serverName }, { T := now, C := cert })
                  :: (c.sweepIfDue now).certs }
              minted := true } := by
        simp only [Cache.Get, getOrCreate_eq, hl, hf]
      rw [hres] at hok ⊢
      have hv : tlsCert cert = v := by simpa using hok
      exact ⟨{ T := now, C := cert }, lookupCert_cons_self _ _ _, hv.symm, by simp⟩

/-- Witness for C5: a fresh cache at time 5, probe failing, fallback
mint producing certificate 4. -/
theorem Get_entry_age_bounded_witness :
    ∃ entry : cacheEntry,
      lookupCert (NewCache.Get 5 "x.test:443" "x.test" (.error (.msg "probe failed"))
          (fun crt => .ok crt) (.ok 4) (fun crt => crt)).state.certs
        { Addr := "x.test:443", ServerName := "x.test" } = some entry ∧
      4 = entry.C ∧
      5 - entry.T ≤ NewCache.cacheDuration :=
  Get_entry_age_bounded NewCache ReachableCache.init 5 "x.test:443" "x.test"
    (.error (.msg "probe failed")) (fun crt => .ok crt) (.ok 4) (fun crt => crt) 4 rfl

/-- C1: for a top-level CONNECT (no force-host override is set on the
CONNECT event) whose tunnel delivers a first byte, `ServeConnect`
performs a server-side TLS handshake exactly when that byte is `0x16`,
in which case the embedded server is configured with
`forceScheme = "https"`; for any other first byte it serves cleartext
HTTP with `forceScheme = "http"` and no TLS handshake; in both cases
`forceHost` is the original CONNECT target `host:port`, and every
sub-request event the embedded server constructs carries exactly the
configured force host and scheme. -/
theorem serveConnect_discriminates (e : Event) (env : ConnectEnv) (b : Byte)
    (hforce : e.ForceHost = "")
    (hhj : env.hijackOk = true) (hfl : env.flushOk = true) (hwr : env.writeOk = true)
    (hpk : env.peek = some b) :
    (b = 0x16 → attemptedTLSHandshake (ServeConnect e env) = true) ∧
    (b = 0x16 → env.handshakeOk = true →
      ServeConnect e env = .serving true
        { forceHost := e.Req.meta.urlHost
          forceScheme := "https"
          parentID := if env.negotiatedProtocol = "h2" then 0 else e.ID }) ∧
    (b ≠ 0x16 →
      attemptedTLSHandshake (ServeConnect e env) = false ∧
      ServeConnect e env = .serving false
        { forceHost := e.Req.meta.urlHost, forceScheme := "http", parentID := e.ID }) ∧
    (∀ (viaTLS : Bool) (cfg : SubServer), ServeConnect e env = .serving viaTLS cfg →
      cfg.forceHost = e.Req.meta.urlHost ∧
      ∀ (req : HttpReq) (counter : Nat),
        (connectSubEvent cfg req counter).1.ForceHost = cfg.forceHost ∧
        (connectSubEvent cfg req counter).1.ForceScheme = cfg.forceScheme) := by
  have hsub : ∀ (cfg : SubServer) (req : HttpReq) (counter : Nat),
      (connectSubEvent cfg req counter).1.ForceHost = cfg.forceHost ∧
      (connectSubEvent cfg req counter).1.ForceScheme = cfg.forceScheme := by
    intro cfg req counter
    unfold connectSubEvent
    by_cases hp : cfg.parentID = 0 <;> simp [hp, nextRequestID]
  have hres : ServeConnect e env =
      (if b = 0x16 then
        (if ¬env.handshakeOk then ConnectResult.tlsHandshakeFailed
         else .serving true
          { forceHost := e.Req.meta.urlHost
            forceScheme := "https"
            parentID := if env.negotiatedProtocol = "h2" then 0 else e.ID })
       else .serving false
        { forceHost := e.Req.meta.urlHost, forceScheme := "http", parentID := e.ID }) := by
    unfold ServeConnect
    rw [hhj, hfl, hwr, hpk, hforce]
    simp
  rw [hres]
  refine ⟨?_, ?_, ?_, ?_⟩
  · intro hb
    cases hhs : env.handshakeOk <;> simp [hb, hhs, attemptedTLSHandshake]
  · intro hb hhs
    simp [hb, hhs]
  · intro hb
    rw [if_neg hb]
    exact ⟨rfl, rfl⟩
  · intro viaTLS cfg hserv
    by_cases hb : b = 0x16
    · rw [if_pos hb] at hserv
      cases hhs : env.handshakeOk
      · rw [hhs] at hserv
        simp at hserv
      · rw [hhs] at hserv
        simp only [not_true, Bool.true_eq_false, ite_false, if_neg, not_false_iff,
          ite_true, if_pos, Bool.not_true, Bool.false_eq_true,
          ConnectResult.serving.injEq, false_implies, true_and, not_not] at hserv
        obtain ⟨hv, hcfg⟩ := hserv
        subst hcfg
        exact ⟨rfl, hsub _⟩
    · rw [if_neg hb] at hserv
      cases hserv
      exact ⟨rfl, hsub _⟩

/-- A concrete CONNECT request to `echo.test:443`. -/
def c1req : HttpReq :=
  { meta := { method := "CONNECT", urlHost := "echo.test:443", path := "",
              remoteAddr := "127.0.0.1:6000" }
    body := nopCloser [] }

/-- The CONNECT event for the C1 witness, id 1. -/
def c1event : Event := newEvent c1req 1

/-- An environment where everything succeeds, the first tunneled byte
is `0x16`, and ALPN negotiates `h2`. -/
def c1env : ConnectEnv :=
  { hijackOk := true, flushOk := true, writeOk := true
    peek := some 0x16, handshakeOk := true, negotiatedProtocol := "h2" }

/-- Witness for C1 at the concrete TLS-with-h2 CONNECT. -/
theorem serveConnect_discriminates_witness :
    ((0x16 : Byte) = 0x16 → attemptedTLSHandshake (ServeConnect c1event c1env) = true) ∧
    ((0x16 : Byte) = 0x16 → c1env.handshakeOk = true →
      ServeConnect c1event c1env = .serving true
        { forceHost := c1event.Req.meta.urlHost
          forceScheme := "https"
          parentID := if c1env.negotiatedProtocol = "h2" then 0 else c1event.ID }) ∧
    ((0x16 : Byte) ≠ 0x16 →
      attemptedTLSHandshake (ServeConnect c1event c1env) = false ∧
      ServeConnect c1event c1env = .serving false
        { forceHost := c1event.Req.meta.urlHost, forceScheme := "http",
          parentID := c1event.ID }) ∧
    (∀ (viaTLS : Bool) (cfg : SubServer), ServeConnect c1event c1env = .serving viaTLS cfg →
      cfg.forceHost = c1event.Req.meta.urlHost ∧
      ∀ (req : HttpReq) (counter : Nat),
        (connectSubEvent cfg req counter).1.ForceHost = cfg.forceHost ∧
        (connectSubEvent cfg req counter).1.ForceScheme = cfg.forceScheme) :=
  serveConnect_discriminates c1event c1env 0x16 rfl rfl rfl rfl rfl

/-! ## Request ids (claim C8) -/

/-- A concrete CONNECT request to `echo.test:80`. -/
def c8creq : HttpReq :=
  { meta := { method := "CONNECT", urlHost := "echo.test:80", path := "",
              remoteAddr := "127.0.0.1:7000" }
    body := nopCloser [] }

/-- The CONNECT event, carrying counter id 1. -/
def c8event : Event := newEvent c8creq 1

/-- A cleartext tunnel: the first byte is ASCII `G` (0x47). -/
def c8env : ConnectEnv :=
  { hijackOk := true, flushOk := true, writeOk := true
    peek := some 0x47, handshakeOk := true, negotiatedProtocol := "" }

/-- First tunneled sub-request. -/
def c8r1 : HttpReq :=
  { meta := { method := "GET", urlHost := "", path := "/one",
              remoteAddr := "127.0.0.1:7000" }
    body := nopCloser [] }

/-- Second tunneled sub-request (a different request). -/
def c8r2 : HttpReq :=
  { meta := { method := "GET", urlHost := "", path := "/two",
              remoteAddr := "127.0.0.1:7000" }
    body := nopCloser [] }

/-- The sub-server configuration the cleartext CONNECT produces. -/
def c8cfg : SubServer :=
  { forceHost := "echo.test:80", forceScheme := "http", parentID := 1 }

/-- The two sub-request events of the tunnel, counter starting at 1. -/
def c8ev1 : Event := (connectSubEvent c8cfg c8r1 1).1

/-- Second sub-request event, counter threaded from the first. -/
def c8ev2 : Event := (connectSubEvent c8cfg c8r2 (connectSubEvent c8cfg c8r1 1).2).1

/-- C8 counterexample: inside a cleartext (non-h2) CONNECT tunnel, the
handler reuses the parent id for every sub-request, so two distinct
sub-request events — and the CONNECT event itself — all carry id 1:
ids are not unique across distinct events. -/
theorem event_ids_not_unique :
    ServeConnect c8event c8env = .serving false c8cfg ∧
    c8ev1 ≠ c8ev2 ∧
    c8ev1.ID = c8ev2.ID ∧
    c8ev1.ID = c8event.ID := by
  refine ⟨?_, by decide, by decide, by decide⟩
  decide

/-- The ids handed out by `n` successive `nextRequestID` calls
starting from counter value `c0`. -/
def callIds (c0 : Nat) : Nat → List Nat
  | 0 => []
  | n + 1 => (nextRequestID c0).1 :: callIds (nextRequestID c0).2 n

/-- The counter `nextRequestID` hands out the consecutive range above the starting
counter. -/
theorem callIds_eq_range (n : Nat) : ∀ c0 : Nat, callIds c0 n = List.range' (c0 + 1) n := by
  induction n with
  | zero => intro c0; rfl
  | succ m ih =>
    intro c0
    show (c0 + 1) :: callIds (c0 + 1) m = (c0 + 1) :: List.range' (c0 + 1 + 1) m
    rw [ih (c0 + 1)]

/-- The handler `connectSubEvent` with a zero parent id draws a fresh counter
id. -/
theorem connectSubEvent_parent0 (cfg : SubServer) (r : HttpReq) (c0 : Nat)
    (hp : cfg.parentID = 0) :
    connectSubEvent cfg r c0 =
      ({ newEvent r (c0 + 1) with
          ForceHost := cfg.forceHost, ForceScheme := cfg.forceScheme }, c0 + 1) := by
  unfold connectSubEvent nextRequestID
  rw [hp]
  rfl

/-- The handler `connectSubEvent` with a nonzero parent id reuses it and leaves
the counter alone. -/
theorem connectSubEvent_parentNZ (cfg : SubServer) (r : HttpReq) (c0 : Nat)
    (hp : cfg.parentID ≠ 0) :
    connectSubEvent cfg r c0 =
      ({ newEvent r cfg.parentID with
          ForceHost := cfg.forceHost, ForceScheme := cfg.forceScheme }, c0) := by
  unfold connectSubEvent nextRequestID
  simp only [if_neg hp]

/-- With a zero parent id (the h2 namespace), each sub-request draws a
fresh id from the counter. -/
theorem connectSubEvents_ids_fresh (cfg : SubServer) (hp : cfg.parentID = 0) :
    ∀ (reqs : List HttpReq) (c0 : Nat),
      (connectSubEvents cfg reqs c0).1.map Event.ID = callIds c0 reqs.length ∧
      (connectSubEvents cfg reqs c0).2 = c0 + reqs.length := by
  intro reqs
  induction reqs with
  | nil => intro c0; exact ⟨rfl, rfl⟩
  | cons r rs ih =>
    intro c0
    obtain ⟨ht, hc⟩ := ih (c0 + 1)
    simp only [connectSubEvents, connectSubEvent_parent0 cfg r c0 hp, List.map_cons,
      List.length_cons]
    constructor
    · show (c0 + 1) :: (connectSubEvents cfg rs (c0 + 1)).1.map Event.ID
        = (c0 + 1) :: callIds (c0 + 1) rs.length
      rw [ht]
    · rw [hc]
      omega

/-- With a nonzero parent id (HTTP/1.1 tunnels), every sub-request
reuses the parent id and the counter never moves. -/
theorem connectSubEvents_ids_reuse (cfg : SubServer) (hp : cfg.parentID ≠ 0) :
    ∀ (reqs : List HttpReq) (c0 : Nat),
      (connectSubEvents cfg reqs c0).1.map Event.ID
        = reqs.map (fun _ => cfg.parentID) ∧
      (connectSubEvents cfg reqs c0).2 = c0 := by
  intro reqs
  induction reqs with
  | nil => intro c0; exact ⟨rfl, rfl⟩
  | cons r rs ih =>
    intro c0
    obtain ⟨ht, hc⟩ := ih c0
    simp only [connectSubEvents, connectSubEvent_parentNZ cfg r c0 hp, List.map_cons]
    constructor
    · show cfg.parentID :: (connectSubEvents cfg rs c0).1.map Event.ID
        = cfg.parentID :: rs.map (fun _ => cfg.parentID)
      rw [ht]
    · exact hc

/-- C8 amended: ids drawn from the shared counter are the consecutive
range above the starting value — a strict total order, pairwise
distinct, never reused; every sub-request of an h2 tunnel (parent id
0) draws such a fresh id; but sub-requests of a non-h2 tunnel all
reuse the parent CONNECT's id, so distinct events can share an id. -/
theorem request_ids_amended (c0 n : Nat) (cfgFresh cfgReuse : SubServer)
    (reqs : List HttpReq)
    (hfresh : cfgFresh.parentID = 0) (hreuse : cfgReuse.parentID ≠ 0) :
    callIds c0 n = List.range' (c0 + 1) n ∧
    (callIds c0 n).Nodup ∧
    (connectSubEvents cfgFresh reqs c0).1.map Event.ID = callIds c0 reqs.length ∧
    (connectSubEvents cfgReuse reqs c0).1.map Event.ID
      = reqs.map (fun _ => cfgReuse.parentID) := by
  refine ⟨callIds_eq_range n c0, ?_, (connectSubEvents_ids_fresh cfgFresh hfresh reqs c0).1,
    (connectSubEvents_ids_reuse cfgReuse hreuse reqs c0).1⟩
  rw [callIds_eq_range n c0]
  exact List.nodup_range' _ _

/-- Witness for the amended C8 statement: three counter draws from 5,
an h2-style configuration and a reuse configuration over two
sub-requests. -/
theorem request_ids_amended_witness :
    callIds 5 3 = List.range' 6 3 ∧
    (callIds 5 3).Nodup ∧
    (connectSubEvents { forceHost := "h:443", forceScheme := "https", parentID := 0 }
        [c8r1, c8r2] 5).1.map Event.ID = callIds 5 [c8r1, c8r2].length ∧
    (connectSubEvents c8cfg [c8r1, c8r2] 5).1.map Event.ID
      = [c8r1, c8r2].map (fun _ => c8cfg.parentID) :=
  request_ids_amended 5 3 { forceHost := "h:443", forceScheme := "https", parentID := 0 }
    c8cfg [c8r1, c8r2] rfl (by decide)

/-- Unfolding one forwarding layer: when the hook forwards, the run of
a wrapped pipeline records the hook with the closure over the captured
previous pipeline and continues into that pipeline with the mutated
event. -/
theorem runPipeFn_wrapped (H : HookSem) (hcf : ∀ k e, H.callsForward k e = true)
    (p0 : PipeFn) (k : Nat) (e : Event) :
    runPipeFn H (.wrapped p0 k) e =
      { trace := (k, FwdClosure.invoke p0) ::
          (runPipeFn H p0 (H.pre k { e with ForwardRequest := .invoke p0 })).trace
        hitTerminal :=
          (runPipeFn H p0 (H.pre k { e with ForwardRequest := .invoke p0 })).hitTerminal
        result := H.post k (H.pre k { e with ForwardRequest := .invoke p0 })
          (runPipeFn H p0 (H.pre k { e with ForwardRequest := .invoke p0 })).result } := by
  rw [runPipeFn]
  simp only [hcf, if_pos]

/-- Running the pipeline obtained by folding registrations of `fs`
over `p0`, with hooks that all forward: the observable trace is the
expected one, followed by the run of `p0` itself on some event. -/
theorem runPipeFn_foldl (H : HookSem) (hcf : ∀ k e, H.callsForward k e = true)
    (fs : List Nat) :
    ∀ (p0 : PipeFn) (e : Event),
      ∃ efin : Event,
        (runPipeFn H (fs.foldl (fun acc k => .wrapped acc k) p0) e).trace
          = expectedTrace p0 fs ++ (runPipeFn H p0 efin).trace ∧
        (runPipeFn H (fs.foldl (fun acc k => .wrapped acc k) p0) e).hitTerminal
          = (runPipeFn H p0 efin).hitTerminal := by
  induction fs with
  | nil =>
    intro p0 e
    exact ⟨e, by simp [expectedTrace], rfl⟩
  | cons k ks ih =>
    intro p0 e
    obtain ⟨efin, ht, hh⟩ := ih (.wrapped p0 k) e
    refine ⟨H.pre k { efin with ForwardRequest := .invoke p0 }, ?_, ?_⟩
    · show (runPipeFn H (ks.foldl (fun acc k => .wrapped acc k) (.wrapped p0 k)) e).trace = _
      rw [ht, runPipeFn_wrapped H hcf]
      simp [expectedTrace, List.append_assoc]
    · show (runPipeFn H (ks.foldl (fun acc k => .wrapped acc k) (.wrapped p0 k)) e).hitTerminal = _
      rw [hh, runPipeFn_wrapped H hcf]

/-- The hook labels of the expected trace are the registered functions
in reverse registration order: the most recently registered hook runs
outermost. -/
theorem expectedTrace_map_fst (fs : List Nat) :
    ∀ p0 : PipeFn, (expectedTrace p0 fs).map Prod.fst = fs.reverse := by
  induction fs with
  | nil => intro p0; rfl
  | cons k ks ih =>
    intro p0
    simp [expectedTrace, ih]

/-- C2: running the pipeline built by `Register` from a nil pipeline
with hook functions `fs` (registered in list order), where every hook
calls `forwardRequest`, invokes the hooks in reverse registration
order — the most recently registered hook outermost — hands each hook
`k` an event whose `ForwardRequest` closure captures exactly the
pipeline that existed before `k` was registered (so `forwardRequest`
from hook `h_k` invokes `h_(k-1)` and so on), and ultimately reaches
the terminal upstream forward. -/
theorem register_pipeline_order (H : HookSem) (hcf : ∀ k e, H.callsForward k e = true)
    (fs : List Nat) (e : Event) :
    (runPipeFn H (Register none fs) e).trace = expectedTrace .terminal fs ∧
    (runPipeFn H (Register none fs) e).hitTerminal = true ∧
    (expectedTrace PipeFn.terminal fs).map Prod.fst = fs.reverse := by
  obtain ⟨efin, ht, hh⟩ := runPipeFn_foldl H hcf fs .terminal e
  refine ⟨?_, ?_, expectedTrace_map_fst fs .terminal⟩
  · show (runPipeFn H (fs.foldl (fun acc k => .wrapped acc k) .terminal) e).trace = _
    rw [ht]
    simp [runPipeFn]
  · show (runPipeFn H (fs.foldl (fun acc k => .wrapped acc k) .terminal) e).hitTerminal = _
    rw [hh]
    rfl

/-- A hook interpretation in which every hook forwards, mutates
nothing, and passes results through. -/
def c2hooks : HookSem :=
  { pre := fun _ e => e
    callsForward := fun _ _ => true
    post := fun _ _ r => r
    short := fun _ _ => .ok { tag := 0 }
    upstream := fun _ => .ok { tag := 7 } }

/-- Witness for C2: three hooks registered in order 0, 1, 2 on a
concrete event. -/
theorem register_pipeline_order_witness :
    (runPipeFn c2hooks (Register none [0, 1, 2]) c7event).trace
      = expectedTrace .terminal [0, 1, 2] ∧
    (runPipeFn c2hooks (Register none [0, 1, 2]) c7event).hitTerminal = true ∧
    (expectedTrace PipeFn.terminal [0, 1, 2]).map Prod.fst = [0, 1, 2].reverse :=
  register_pipeline_order c2hooks (fun _ _ => rfl) [0, 1, 2] c7event

/-- One unfolding step of the SAN partition loop. -/
theorem sanLists_cons (p : String → Bool) (m : String) (ms : List String) :
    sanLists p (m :: ms) =
      (if p m then ((sanLists p ms).1, m :: (sanLists p ms).2)
       else (m :: (sanLists p ms).1, (sanLists p ms).2)) := by
  rcases h : sanLists p ms with ⟨dns, ips⟩
  simp [sanLists, h]

/-- Occurrences of a name in the DNS SAN list: all its occurrences in
`names` when it does not parse as an IP, none otherwise. -/
theorem sanLists_dns_count (p : String → Bool) (n : String) :
    ∀ names : List String,
      (sanLists p names).1.count n = if p n then 0 else names.count n := by
  intro names
  induction names with
  | nil => simp [sanLists]
  | cons m ms ih =>
    rw [sanLists_cons]
    by_cases hm : p m = true
    · rw [if_pos hm]
      by_cases hn : p n = true
      · simpa [hn] using ih
      · have hmn : n ≠ m := by
          intro hc
          rw [hc] at hn
          exact hn hm
        rw [show ((sanLists p ms).1, m :: (sanLists p ms).2).1 = (sanLists p ms).1 from rfl,
          ih, List.count_cons]
        simp [hn, hmn, Ne.symm hmn]
    · rw [if_neg hm]
      rw [show (m :: (sanLists p ms).1, (sanLists p ms).2).1
        = m :: (sanLists p ms).1 from rfl, List.count_cons, ih, List.count_cons]
      by_cases hn : p n = true
      · have hmn : n ≠ m := fun hc => hm (hc ▸ hn)
        simp [hn, hmn, Ne.symm hmn]
      · simp [hn]

/-- Occurrences of a name in the IP SAN list: all its occurrences in
`names` when it parses as an IP, none otherwise. -/
theorem sanLists_ip_count (p : String → Bool) (n : String) :
    ∀ names : List String,
      (sanLists p names).2.count n = if p n then names.count n else 0 := by
  intro names
  induction names with
  | nil => simp [sanLists]
  | cons m ms ih =>
    rw [sanLists_cons]
    by_cases hm : p m = true
    · rw [if_pos hm]
      rw [show ((sanLists p ms).1, m :: (sanLists p ms).2).2
        = m :: (sanLists p ms).2 from rfl, List.count_cons, ih, List.count_cons]
      by_cases hn : p n = true
      · simp [hn]
      · have hmn : n ≠ m := by
          intro hc
          rw [hc] at hn
          exact hn hm
        simp [hn, hmn, Ne.symm hmn]
    · rw [if_neg hm]
      rw [show (m :: (sanLists p ms).1, (sanLists p ms).2).2
        = (sanLists p ms).2 from rfl, ih, List.count_cons]
      by_cases hn : p n = true
      · have hmn : n ≠ m := fun hc => hm (hc ▸ hn)
        simp [hn, hmn, Ne.symm hmn]
      · simp [hn]

/-- The fields of a minted leaf, stated over `sanLists`. -/
theorem NewCertificate_fields (p : String → Bool) (caId : Nat) (sb : List Byte)
    (now : Nat) (cn : String) (names : List String) :
    (NewCertificate p caId sb now cn names).DNSNames = (sanLists p names).1 ∧
    (NewCertificate p caId sb now cn names).IPAddresses = (sanLists p names).2 ∧
    (NewCertificate p caId sb now cn names).signedByCA = caId ∧
    (NewCertificate p caId sb now cn names).SerialNumber = bytesToNat sb ∧
    (NewCertificate p caId sb now cn names).SubjectCN = cn := by
  unfold NewCertificate
  rcases hq : sanLists p names with ⟨dns, ips⟩
  exact ⟨rfl, rfl, rfl, rfl, rfl⟩

/-- Big-endian byte folding stays below `(acc + 1) * 256 ^ length`. -/
theorem foldl_bytes_lt (l : List Byte) :
    ∀ acc : Nat, (∀ x ∈ l, x < 256) →
      l.foldl (fun a b => a * 256 + b) acc < (acc + 1) * 256 ^ l.length := by
  induction l with
  | nil =>
    intro acc _
    simp only [List.foldl_nil, List.length_nil, pow_zero, mul_one]
    omega
  | cons b t ih =>
    intro acc hb
    have hblt : b < 256 := hb b (List.mem_cons_self b t)
    have ht : ∀ x ∈ t, x < 256 := fun x hx => hb x (List.mem_cons_of_mem b hx)
    have h1 := ih (acc * 256 + b) ht
    have hstep : acc * 256 + b + 1 ≤ (acc + 1) * 256 := by
      have hb1 : b + 1 ≤ 256 := Nat.succ_le_of_lt hblt
      calc acc * 256 + b + 1 = acc * 256 + (b + 1) := by ring
        _ ≤ acc * 256 + 256 := Nat.add_le_add_left hb1 _
        _ = (acc + 1) * 256 := by ring
    have h2 : (acc * 256 + b + 1) * 256 ^ t.length ≤ (acc + 1) * 256 ^ (b :: t).length := by
      calc (acc * 256 + b + 1) * 256 ^ t.length
          ≤ ((acc + 1) * 256) * 256 ^ t.length := Nat.mul_le_mul_right _ hstep
        _ = (acc + 1) * 256 ^ (b :: t).length := by
            simp only [List.length_cons, pow_succ]
            ring
    calc (b :: t).foldl (fun a x => a * 256 + x) acc
        = t.foldl (fun a x => a * 256 + x) (acc * 256 + b) := rfl
      _ < (acc * 256 + b + 1) * 256 ^ t.length := h1
      _ ≤ (acc + 1) * 256 ^ (b :: t).length := h2

/-- Eight random bytes make a 64-bit serial. -/
theorem bytesToNat_lt_2_64 (l : List Byte) (hlen : l.length = 8)
    (hb : ∀ x ∈ l, x < 256) : bytesToNat l < 2 ^ 64 := by
  have h := foldl_bytes_lt l 0 hb
  rw [hlen] at h
  simpa [bytesToNat] using h

/-- C6: a leaf minted by `NewCertificate(cn, names)` carries each
element of a duplicate-free `names` exactly once among its SANs,
placed in the IP-address list exactly when it parses as an IP address
and in the DNS-name list otherwise; it is signed by the CA and its
serial comes from 8 random bytes, hence is a 64-bit value; on the
concrete scenario input the DNS SANs are
`["foo.example", "bar.example"]` and the IP SANs `["127.0.0.1"]`. -/
theorem mint_san_partition (parseIP : String → Bool) (caId : Nat) (serialBytes : List Byte)
    (now : Nat) (cn : String) (names : List String)
    (hnd : names.Nodup) (hlen : serialBytes.length = 8)
    (hbytes : ∀ x ∈ serialBytes, x < 256) :
    (∀ n ∈ names,
      (NewCertificate parseIP caId serialBytes now cn names).DNSNames.count n
        + (NewCertificate parseIP caId serialBytes now cn names).IPAddresses.count n = 1 ∧
      (parseIP n = true →
        (NewCertificate parseIP caId serialBytes now cn names).IPAddresses.count n = 1 ∧
        (NewCertificate parseIP caId serialBytes now cn names).DNSNames.count n = 0) ∧
      (parseIP n = false →
        (NewCertificate parseIP caId serialBytes now cn names).DNSNames.count n = 1 ∧
        (NewCertificate parseIP caId serialBytes now cn names).IPAddresses.count n = 0)) ∧
    (NewCertificate parseIP caId serialBytes now cn names).signedByCA = caId ∧
    (NewCertificate parseIP caId serialBytes now cn names).SerialNumber < 2 ^ 64 ∧
    (NewCertificate parseIPv4 caId serialBytes now "foo.example"
        ["foo.example", "bar.example", "127.0.0.1"]).DNSNames
      = ["foo.example", "bar.example"] ∧
    (NewCertificate parseIPv4 caId serialBytes now "foo.example"
        ["foo.example", "bar.example", "127.0.0.1"]).IPAddresses = ["127.0.0.1"] ∧
    (NewCertificate parseIPv4 caId serialBytes now "foo.example"
        ["foo.example", "bar.example", "127.0.0.1"]).signedByCA = caId := by
  obtain ⟨hdns, hips, hca, hser, _⟩ :=
    NewCertificate_fields parseIP caId serialBytes now cn names
  obtain ⟨hdns2, hips2, hca2, _, _⟩ :=
    NewCertificate_fields parseIPv4 caId serialBytes now "foo.example"
      ["foo.example", "bar.example", "127.0.0.1"]
  refine ⟨?_, hca, ?_, ?_, ?_, hca2⟩
  · intro n hn
    have hcount : names.count n = 1 := List.count_eq_one_of_mem hnd hn
    rw [hdns, hips, sanLists_dns_count, sanLists_ip_count]
    by_cases hp : parseIP n = true
    · simp [hp, hcount]
    · have hp2 : parseIP n = false := Bool.eq_false_iff.mpr hp
      simp [hp2, hcount]
  · rw [hser]
    exact bytesToNat_lt_2_64 serialBytes hlen hbytes
  · rw [hdns2]
    decide
  · rw [hips2]
    decide

/-- Witness for C6: concrete serial bytes and the scenario name
list. -/
theorem mint_san_partition_witness :
    (∀ n ∈ ["foo.example", "bar.example", "127.0.0.1"],
      (NewCertificate parseIPv4 3 [1, 2, 3, 4, 5, 6, 7, 8] 0 "foo.example"
          ["foo.example", "bar.example", "127.0.0.1"]).DNSNames.count n
        + (NewCertificate parseIPv4 3 [1, 2, 3, 4, 5, 6, 7, 8] 0 "foo.example"
          ["foo.example", "bar.example", "127.0.0.1"]).IPAddresses.count n = 1 ∧
      (parseIPv4 n = true →
        (NewCertificate parseIPv4 3 [1, 2, 3, 4, 5, 6, 7, 8] 0 "foo.example"
          ["foo.example", "bar.example", "127.0.0.1"]).IPAddresses.count n = 1 ∧
        (NewCertificate parseIPv4 3 [1, 2, 3, 4, 5, 6, 7, 8] 0 "foo.example"
          ["foo.example", "bar.example", "127.0.0.1"]).DNSNames.count n = 0) ∧
      (parseIPv4 n = false →
        (NewCertificate parseIPv4 3 [1, 2, 3, 4, 5, 6, 7, 8] 0 "foo.example"
          ["foo.example", "bar.example", "127.0.0.1"]).DNSNames.count n = 1 ∧
        (NewCertificate parseIPv4 3 [1, 2, 3, 4, 5, 6, 7, 8] 0 "foo.example"
          ["foo.example", "bar.example", "127.0.0.1"]).IPAddresses.count n = 0)) ∧
    (NewCertificate parseIPv4 3 [1, 2, 3, 4, 5, 6, 7, 8] 0 "foo.example"
        ["foo.example", "bar.example", "127.0.0.1"]).signedByCA = 3 ∧
    (NewCertificate parseIPv4 3 [1, 2, 3, 4, 5, 6, 7, 8] 0 "foo.example"
        ["foo.example", "bar.example", "127.0.0.1"]).SerialNumber < 2 ^ 64 ∧
    (NewCertificate parseIPv4 3 [1, 2, 3, 4, 5, 6, 7, 8] 0 "foo.example"
        ["foo.example", "bar.example", "127.0.0.1"]).DNSNames
      = ["foo.example", "bar.example"] ∧
    (NewCertificate parseIPv4 3 [1, 2, 3, 4, 5, 6, 7, 8] 0 "foo.example"
        ["foo.example", "bar.example", "127.0.0.1"]).IPAddresses = ["127.0.0.1"] ∧
    (NewCertificate parseIPv4 3 [1, 2, 3, 4, 5, 6, 7, 8] 0 "foo.example"
        ["foo.example", "bar.example", "127.0.0.1"]).signedByCA = 3 :=
  mint_san_partition parseIPv4 3 [1, 2, 3, 4, 5, 6, 7, 8] 0 "foo.example"
    ["foo.example", "bar.example", "127.0.0.1"] (by decide) rfl (by decide)

end Osmosis
